import Mathlib

/-!
Verification of the FinSign-BI ingestion pipeline (etl/ozon_loader.py and
etl/wb_loader.py) against its natural-language specification.

The embedding models Python/pandas values with a small JSON value type;
machine floats are modelled by rationals (the payloads in play are decimal
literals), SQL tables by Lean lists, and raising code by `Except`.
-/

/-- A JSON value, as produced by `resp.json()` and consumed by the loaders.
Objects are association lists; duplicate keys do not arise in JSON payloads. -/
inductive JsonVal where
  | null
  | str (s : String)
  | num (q : Rat)
  | bool (b : Bool)
  | arr (xs : List JsonVal)
  | obj (kvs : List (String × JsonVal))

/-- `d.get(k)` on an object's association list (first binding wins). -/
def jget (kvs : List (String × JsonVal)) (k : String) : Option JsonVal :=
  (kvs.find? (fun p => p.1 == k)).map (fun p => p.2)

/-- `it.get(k)` on a JSON dict: absent keys give Python `None` (here `.null`).
The loaders only call this on dict records. -/
def jgetD (it : JsonVal) (k : String) : JsonVal :=
  match it with
  | JsonVal.obj kvs => (jget kvs k).getD JsonVal.null
  | _ => JsonVal.null

/-- Python truthiness of a JSON value. -/
def truthy : JsonVal → Bool
  | JsonVal.null => false
  | JsonVal.str s => !(s == "")
  | JsonVal.num q => !(q == 0)
  | JsonVal.bool b => b
  | JsonVal.arr xs => !xs.isEmpty
  | JsonVal.obj kvs => !kvs.isEmpty

/-- `x or y` in Python. -/
def pyOr (a b : JsonVal) : JsonVal :=
  if truthy a then a else b

/-- `v in (None, "", "null")` — the skip test of wb_loader's `coalesce`. -/
def isNullish : JsonVal → Bool
  | JsonVal.null => true
  | JsonVal.str "" => true
  | JsonVal.str "null" => true
  | _ => false

/-- wb_loader `coalesce(*vals, default=...)`: first value not in
`(None, "", "null")`, else the default. -/
def coalesce (vs : List JsonVal) (default : JsonVal) : JsonVal :=
  match vs with
  | [] => default
  | v :: rest => if isNullish v then coalesce rest default else v

/-- Digits of a character list interpreted as a base-10 natural number;
`none` when a non-digit occurs. An empty list gives `some 0`
(callers guard against empty digit runs). -/
def digitsVal (cs : List Char) : Option Nat :=
  cs.foldl
    (fun acc c =>
      match acc with
      | none => none
      | some n => if c.isDigit then some (n * 10 + (c.toNat - 48)) else none)
    (some 0)

/-- Leading/trailing whitespace strip on a character list (`float` ignores it). -/
def stripWs (cs : List Char) : List Char :=
  ((cs.dropWhile Char.isWhitespace).reverse.dropWhile Char.isWhitespace).reverse

/-- Decimal-literal parse of a string, as accepted both by Python `float(s)`
and by `pandas.to_numeric` for the payload values in play: optional sign,
integer digits, optional fractional digits (at least one digit overall).
Exponent forms do not occur in the payloads and are not modelled. -/
def parseFloatStr (s : String) : Option Rat :=
  let cs := stripWs s.toList
  let signAndRest : Int × List Char :=
    match cs with
    | '-' :: rest => (-1, rest)
    | '+' :: rest => (1, rest)
    | _ => (1, cs)
  let sign := signAndRest.1
  let body := signAndRest.2
  let intCs := body.takeWhile Char.isDigit
  let rest := body.dropWhile Char.isDigit
  match rest with
  | [] =>
    if intCs.isEmpty then none
    else (digitsVal intCs).map (fun n => (sign : Rat) * (n : Rat))
  | '.' :: fracCs =>
    if intCs.isEmpty && fracCs.isEmpty then none
    else
      match digitsVal intCs, digitsVal fracCs with
      | some i, some f =>
        some ((sign : Rat) * ((i : Rat) + (f : Rat) / ((10 : Rat) ^ fracCs.length)))
      | _, _ => none
  | _ => none

/-- Python `float(v)`: numbers and booleans convert, numeric strings parse,
everything else raises. -/
def pyFloat : JsonVal → Except String Rat
  | JsonVal.num q => Except.ok q
  | JsonVal.bool b => Except.ok (if b then 1 else 0)
  | JsonVal.str s =>
    match parseFloatStr s with
    | some q => Except.ok q
    | none => Except.error ("could not convert string to float: " ++ s)
  | JsonVal.null => Except.error "float() argument must be a string or a real number, not NoneType"
  | JsonVal.arr _ => Except.error "float() argument must be a string or a real number, not list"
  | JsonVal.obj _ => Except.error "float() argument must be a string or a real number, not dict"

/-- `pd.to_numeric(v, errors="coerce")` on one cell: numbers/booleans pass,
numeric strings parse, anything else becomes NaN (`none`). -/
def pdToNumeric : JsonVal → Option Rat
  | JsonVal.num q => some q
  | JsonVal.bool b => some (if b then 1 else 0)
  | JsonVal.str s => parseFloatStr s
  | _ => none

/-- Python `str(v)` for the value shapes that reach sku stringification
(strings and numeric ids in the payloads). -/
def pyStr : JsonVal → String
  | JsonVal.str s => s
  | JsonVal.num q => toString q
  | JsonVal.bool b => if b then "True" else "False"
  | JsonVal.null => "None"
  | JsonVal.arr _ => "[list]"
  | JsonVal.obj _ => "[dict]"

/-- Gregorian leap year. -/
def isLeap (y : Nat) : Bool :=
  (y % 4 == 0) && (!(y % 100 == 0) || (y % 400 == 0))

/-- Days in a month, as validated by `datetime`. -/
def daysInMonth (y m : Nat) : Nat :=
  if m == 1 || m == 3 || m == 5 || m == 7 || m == 8 || m == 10 || m == 12 then 31
  else if m == 4 || m == 6 || m == 9 || m == 11 then 30
  else if isLeap y then 29 else 28

/-- Parse of `YYYY-MM-DD` optionally followed by a space and `HH:MM:SS`, the
shapes `datetime.fromisoformat` / `strptime("%Y-%m-%d %H:%M:%S")` accept for
the payload dates in play, with calendar validation. The resulting `.date()`
is encoded as the integer `y * 10000 + m * 100 + d` (order-preserving). -/
def isoDateParse (cs : List Char) : Option Int :=
  match cs with
  | y1 :: y2 :: y3 :: y4 :: '-' :: m1 :: m2 :: '-' :: d1 :: d2 :: rest =>
    match digitsVal [y1, y2, y3, y4], digitsVal [m1, m2], digitsVal [d1, d2] with
    | some y, some m, some d =>
      let timeOk : Bool :=
        match rest with
        | [] => true
        | ' ' :: h1 :: h2 :: ':' :: n1 :: n2 :: ':' :: s1 :: s2 :: [] =>
          match digitsVal [h1, h2], digitsVal [n1, n2], digitsVal [s1, s2] with
          | some hh, some nn, some ss => hh < 24 && nn < 60 && ss < 60
          | _, _, _ => false
        | _ => false
      if timeOk && 1 ≤ m && m ≤ 12 && 1 ≤ d && d ≤ daysInMonth y m then
        some ((y : Int) * 10000 + (m : Int) * 100 + (d : Int))
      else none
    | _, _, _ => none
  | _ => none

/-- `s.replace("T", " ")` (single-character pattern). -/
def replaceTbySpace (cs : List Char) : List Char :=
  cs.map (fun c => if c == 'T' then ' ' else c)

/-- wb_loader `parse_date(s)`: falsy input gives `None`; a truthy string has
`T` replaced by a space and is parsed (both parse failures yield `None`);
a truthy non-string raises `AttributeError` at `s.replace`. -/
def pyParse_date (v : JsonVal) : Except String (Option Int) :=
  if truthy v then
    match v with
    | JsonVal.str s => Except.ok (isoDateParse (replaceTbySpace s.toList))
    | _ => Except.error "AttributeError: object has no attribute replace"
  else
    Except.ok none

/-- One network attempt's outcome, as seen by `post_with_retries`:
either `requests.post` raises a `RequestException`, or it returns a
response with a status code and (for 200) a JSON body. -/
inductive ReqOutcome where
  | exn (msg : String)
  | resp (status : Nat) (body : JsonVal)

/-- How a `post_with_retries` call ends: a normal return of a JSON body
(including the fall-through `return {}`), a `RuntimeError` raised for a
non-5xx non-200 status, or the re-raised last transport exception. -/
inductive RetryOutcome where
  | ok (body : JsonVal)
  | raised (status : Nat)
  | reraised (msg : String)

/-- ozon_loader `backoff(retry)`: the slept delay `min(2 ** retry, 30)`. -/
def backoff (retry : Nat) : Nat :=
  min (2 ^ retry) 30

/-- ozon_loader `max_retries = 5`. -/
def maxRetries : Nat := 5

/-- The `for attempt in range(max_retries)` loop of `post_with_retries`,
with the oracle `o` giving attempt `i`'s outcome, `remaining` the loop
iterations left, `attempt` the current index, and `acc` the total delay
slept so far. Falling out of the loop models the final `return {}`. -/
def post_loop (o : Nat → ReqOutcome) : Nat → Nat → Nat → RetryOutcome × Nat
  | 0, _, acc => (RetryOutcome.ok (JsonVal.obj []), acc)
  | remaining + 1, attempt, acc =>
    match o attempt with
    | ReqOutcome.resp status body =>
      if status == 200 then (RetryOutcome.ok body, acc)
      else if 500 ≤ status && status < 600 then
        post_loop o remaining (attempt + 1) (acc + backoff attempt)
      else (RetryOutcome.raised status, acc)
    | ReqOutcome.exn e =>
      if attempt == maxRetries - 1 then (RetryOutcome.reraised e, acc)
      else post_loop o remaining (attempt + 1) (acc + backoff attempt)

/-- ozon_loader `post_with_retries`, returning the call's outcome together
with the total backoff delay slept before it. -/
def post_with_retries (o : Nat → ReqOutcome) : RetryOutcome × Nat :=
  post_loop o maxRetries 0 0

/-- An attempt outcome `post_with_retries` retries on: a 5xx response or a
transport exception (the latter retried only below the last attempt). -/
def retryable : ReqOutcome → Bool
  | ReqOutcome.resp status _ => 500 ≤ status && status < 600
  | ReqOutcome.exn _ => true

/-- Total backoff delay before attempt `i`: the sum of `min(2^j, 30)` over
the failed attempts `j < i`. -/
def delaysUpTo (i : Nat) : Nat :=
  ((List.range i).map (fun j => min (2 ^ j) 30)).sum

/-- The `for key in ("items", "stocks", "data", "rows")` probe of
ozon_loader `extract_items`: the first of the given keys whose value is a
list wins; otherwise the empty list. -/
def probeLoop (rk : List (String × JsonVal)) : List String → List JsonVal
  | [] => []
  | k :: ks =>
    match jget rk k with
    | some (JsonVal.arr l) => l
    | _ => probeLoop rk ks

/-- The fixed probe-key order of `extract_items`. -/
def probeKeysOrder : List String := ["items", "stocks", "data", "rows"]

def probe_keys (rk : List (String × JsonVal)) : List JsonVal :=
  probeLoop rk probeKeysOrder

/-- ozon_loader `extract_items(data)`: non-dicts give `[]`; otherwise
`res = data.get("result", data)` — note the fallback to `data` itself —
then a list is returned as-is, a dict is probed, anything else gives `[]`. -/
def extract_items : JsonVal → List JsonVal
  | JsonVal.obj kvs =>
    match (jget kvs "result").getD (JsonVal.obj kvs) with
    | JsonVal.arr l => l
    | JsonVal.obj rk => probe_keys rk
    | _ => []
  | _ => []

/-- The `while True` loop of ozon_loader `fetch_all_ozon_stock`, with the
upstream modelled as the sequence of record batches extracted from the
successive responses (an exhausted upstream returns the empty batch).
The loop extends the accumulator with every non-empty batch, stops on an
empty batch or one shorter than `page_limit`, and otherwise advances
`offset` by `page_limit` and continues. -/
def fetch_all_aux (page_limit : Nat) : List (List JsonVal) → Nat → List JsonVal
  | [], _ => []
  | batch :: rest, offset =>
    if batch.length == 0 then []
    else if batch.length < page_limit then batch
    else batch ++ fetch_all_aux page_limit rest (offset + page_limit)

/-- ozon_loader `fetch_all_ozon_stock`: offset/limit pagination starting at
offset 0. -/
def fetch_all_ozon_stock (page_limit : Nat) (pages : List (List JsonVal)) : List JsonVal :=
  fetch_all_aux page_limit pages 0

/-- The page-size shape an offset/limit upstream serving a finite dataset
produces: every page except possibly the last has exactly the requested
size, the last is shorter. -/
inductive OffsetShape (L : Nat) : List (List JsonVal) → Prop
  | nil : OffsetShape L []
  | short (p : List JsonVal) (h : p.length < L) : OffsetShape L [p]
  | full (p : List JsonVal) (rest : List (List JsonVal)) (h : p.length = L)
      (hr : OffsetShape L rest) : OffsetShape L (p :: rest)

/-- `item.get("rrd_id") or item.get("rrdid") or 0` for one report record
(report ids are numeric in the payloads). -/
def rrdCand (it : JsonVal) : Rat :=
  let v := pyOr (jgetD it "rrd_id") (pyOr (jgetD it "rrdid") (JsonVal.num 0))
  match v with
  | JsonVal.num q => q
  | _ => 0

/-- `max(...)` of the candidate ids of a non-empty batch. -/
def batchMaxRrd (batch : List JsonVal) : Rat :=
  match batch with
  | [] => 0
  | b :: rest => rest.foldl (fun a it => max a (rrdCand it)) (rrdCand b)

/-- The `while True` loop of wb_loader `fetch_report_all`: accumulate every
non-empty batch, feed the maximal record id forward as the next cursor, and
stop at the first empty batch. The upstream is modelled as the sequence of
batches returned by the successive requests. -/
def fetch_report_aux : List (List JsonVal) → Rat → List JsonVal
  | [], _ => []
  | batch :: rest, _ =>
    if batch.isEmpty then []
    else batch ++ fetch_report_aux rest (batchMaxRrd batch)

/-- wb_loader `fetch_report_all`: cursor pagination starting at `rrdid = 0`. -/
def fetch_report_all (pages : List (List JsonVal)) : List JsonVal :=
  fetch_report_aux pages 0

/-- One row of the normalized Ozon stock frame produced by
`normalize_stock` (the selected output columns). -/
structure OzonRow where
  date : Option Int
  warehouse_name : JsonVal
  region : JsonVal
  product_id : JsonVal
  sku : JsonVal
  item_name : JsonVal
  quantity : Rat
  reserved : Rat
  price : Rat

/-- `pd.to_numeric(df[col], errors="coerce").fillna(0)` on one cell. -/
def ozonMeasure (it : JsonVal) (col : String) : Rat :=
  (pdToNumeric (jgetD it col)).getD 0

/-- `pd.to_datetime(cell, errors="coerce").dt.date` on one cell: payload
dates are ISO strings or absent; other shapes are modelled as unparseable. -/
def pdParseDate (v : JsonVal) : Option Int :=
  match v with
  | JsonVal.str s => isoDateParse (replaceTbySpace s.toList)
  | _ => none

/-- One output row of `normalize_stock`, given the record and its resolved
date cell. -/
def mkOzonRow (it : JsonVal) (d : Option Int) : OzonRow :=
  { date := d
    warehouse_name := jgetD it "warehouse_name"
    region := jgetD it "region"
    product_id := jgetD it "product_id"
    sku := jgetD it "sku"
    item_name := jgetD it "item_name"
    quantity := ozonMeasure it "quantity"
    reserved := ozonMeasure it "reserved"
    price := ozonMeasure it "price" }

/-- The `date` column resolution of ozon_loader `normalize_stock`: the
column is parsed per row; if it is NaN on every row the `updated_at` column
is parsed instead; if still NaN on every row, every date becomes
today's date. -/
def resolvedDates (today : Int) (items : List JsonVal) : List (Option Int) :=
  let d0 := items.map (fun it => pdParseDate (jgetD it "date"))
  let d1 := if d0.all Option.isNone then
      items.map (fun it => pdParseDate (jgetD it "updated_at"))
    else d0
  if d1.all Option.isNone then
    items.map (fun _ => (some today : Option Int))
  else d1

/-- ozon_loader `normalize_stock(items)` (flat records; `pd.json_normalize`
of a flat dict is the identity): an empty input gives the empty frame;
otherwise every record becomes one output row carrying its resolved date
and its numeric measures coerced with NaN replaced by 0. No row is ever
dropped. -/
def normalize_stock (today : Int) (items : List JsonVal) : List OzonRow :=
  match items with
  | [] => []
  | _ => List.zipWith mkOzonRow items (resolvedDates today items)

/-- The date-candidate cell wb_loader's normalizer resolves for one record:
`coalesce(it.get("sale_dt"), it.get("saleDt"), it.get("date"))`. -/
def wbSaleDt (it : JsonVal) : JsonVal :=
  coalesce [jgetD it "sale_dt", jgetD it "saleDt", jgetD it "date"] JsonVal.null

/-- The sku cell: `coalesce(supplierArticle, sa_article, sa_name, nm_id,
barcode, default="UNKNOWN")`. -/
def wbSku (it : JsonVal) : JsonVal :=
  coalesce
    [jgetD it "supplierArticle", jgetD it "sa_article", jgetD it "sa_name",
     jgetD it "nm_id", jgetD it "barcode"]
    (JsonVal.str "UNKNOWN")

/-- The region cell: `coalesce(regionName, region_name)`. -/
def wbRegion (it : JsonVal) : JsonVal :=
  coalesce [jgetD it "regionName", jgetD it "region_name"] JsonVal.null

/-- The quantity cell: `coalesce(quantity, sale_qty, 0) or 0`. -/
def wbQty (it : JsonVal) : JsonVal :=
  pyOr (coalesce [jgetD it "quantity", jgetD it "sale_qty", JsonVal.num 0] JsonVal.null)
    (JsonVal.num 0)

/-- The price cell: `coalesce(retail_price, price, 0) or 0`. -/
def wbPrice (it : JsonVal) : JsonVal :=
  pyOr (coalesce [jgetD it "retail_price", jgetD it "price", JsonVal.num 0] JsonVal.null)
    (JsonVal.num 0)

/-- One row of the frame built by wb_loader `normalize_to_df`. -/
structure WbRow where
  date : Option Int
  sku : String
  region : JsonVal
  quantity : Rat
  price : Rat
  payload : JsonVal

/-- The per-record body of `normalize_to_df`'s loop, in the source's
evaluation order: `parse_date` may raise on a truthy non-string date cell,
and `float(...)` may raise on a non-numeric measure cell; the sku default
makes the `str(sku)` call total. -/
def wbRow (it : JsonVal) : Except String WbRow :=
  match pyParse_date (wbSaleDt it) with
  | Except.error e => Except.error e
  | Except.ok dt =>
    match pyFloat (wbQty it) with
    | Except.error e => Except.error e
    | Except.ok q =>
      match pyFloat (wbPrice it) with
      | Except.error e => Except.error e
      | Except.ok p =>
        Except.ok
          { date := dt, sku := pyStr (wbSku it), region := wbRegion it,
            quantity := q, price := p, payload := it }

/-- The `for it in items` row-building loop of `normalize_to_df`: the first
record whose row raises aborts the whole batch. -/
def rowsLoop (items : List JsonVal) : Except String (List WbRow) :=
  match items with
  | [] => Except.ok []
  | it :: rest =>
    match wbRow it with
    | Except.error e => Except.error e
    | Except.ok r =>
      match rowsLoop rest with
      | Except.error e => Except.error e
      | Except.ok rs => Except.ok (r :: rs)

/-- wb_loader `normalize_to_df(items)`: build a row per record (the first
raising record aborts the whole batch), then drop the rows whose date is
missing (`df = df[df["date"].notna()]`). -/
def normalize_to_df (items : List JsonVal) : Except String (List WbRow) :=
  match rowsLoop items with
  | Except.error e => Except.error e
  | Except.ok rows => Except.ok (rows.filter (fun r => r.date.isSome))

/-- Whether a record's resolved date cell parses to a date (the rows
`normalize_to_df` keeps). -/
def wbDateResolved (it : JsonVal) : Bool :=
  match pyParse_date (wbSaleDt it) with
  | Except.ok (some _) => true
  | _ => false

/-- Whether an `Except` computation returned normally. -/
def exceptIsOk {ε α : Type} : Except ε α → Bool
  | Except.ok _ => true
  | Except.error _ => false

/-- One stored row of `raw.wb_sales` (the frame columns written by
`df.to_sql`; the date column is non-null for every normalized row). -/
structure WbStoreRow where
  date : Int
  sku : String
  region : JsonVal
  quantity : Rat
  price : Rat
  payload : JsonVal

/-- The store row written for one normalized row (its date is present,
`normalize_to_df` having dropped the rest; `getD` is a type-level default). -/
def wbStoreOf (r : WbRow) : WbStoreRow :=
  { date := r.date.getD 0, sku := r.sku, region := r.region,
    quantity := r.quantity, price := r.price, payload := r.payload }

/-- `df["date"].min()` of a non-empty batch (head-seeded fold). -/
def batchMinDate (b0 : WbStoreRow) (rest : List WbStoreRow) : Int :=
  (rest.map (fun r => r.date)).foldl min b0.date

/-- `df["date"].max()` of a non-empty batch. -/
def batchMaxDate (b0 : WbStoreRow) (rest : List WbStoreRow) : Int :=
  (rest.map (fun r => r.date)).foldl max b0.date

/-- `date BETWEEN dmin AND dmax`. -/
def inWindow (dmin dmax : Int) (r : WbStoreRow) : Bool :=
  decide (dmin ≤ r.date ∧ r.date ≤ dmax)

/-- wb_loader `upsert_raw_wb(engine, df)`: an empty frame writes nothing and
returns 0; otherwise the rows of `raw.wb_sales` dated inside
`[df.date.min(), df.date.max()]` are deleted and the batch is appended;
returns the new table contents and the reported row count `len(df)`. -/
def upsert_raw_wb (store batch : List WbStoreRow) : List WbStoreRow × Nat :=
  match batch with
  | [] => (store, 0)
  | b0 :: rest =>
    let dmin := batchMinDate b0 rest
    let dmax := batchMaxDate b0 rest
    (store.filter (fun r => !inWindow dmin dmax r) ++ (b0 :: rest), (b0 :: rest).length)

/-- One row of `raw.ozon_stock` (every column nullable). -/
structure RawStock where
  date : Option Int
  warehouse_name : Option String
  region : Option String
  product_id : Option String
  sku : Option String
  item_name : Option String
  quantity : Option Rat
  reserved : Option Rat
  price : Option Rat

/-- One row of `mart.fact_sales`; `profit` is the stored generated column
`revenue - cost`. -/
structure FactRow where
  date : Int
  marketplace : String
  sku : String
  region : String
  revenue : Rat
  cost : Rat
  profit : Rat

/-- The SELECT list of `rebuild_mart_from_raw` applied to one raw row:
`COALESCE(date, CURRENT_DATE)`, constant marketplace `ozon`,
`COALESCE(sku, UNKNOWN)`, `COALESCE(NULLIF(region, empty), empty)`,
`revenue = COALESCE(quantity, 0) * COALESCE(price, 0)`, `cost = 0`. -/
def toFactRow (today : Int) (r : RawStock) : FactRow :=
  let rev := (r.quantity.getD 0) * (r.price.getD 0)
  { date := r.date.getD today
    marketplace := "ozon"
    sku := r.sku.getD "UNKNOWN"
    region := match r.region with
      | none => ""
      | some s => if s == "" then "" else s
    revenue := rev
    cost := 0
    profit := rev - 0 }

/-- The fact table's primary key `(date, marketplace, sku, region)`. -/
def factKey (f : FactRow) : Int × String × String × String :=
  (f.date, f.marketplace, f.sku, f.region)

/-- ozon_loader `rebuild_mart_from_raw`: TRUNCATE then a plain
INSERT..SELECT with no GROUP BY. Inside the single transaction the insert
violates the primary key whenever two raw rows map to the same composite
key, and the whole rebuild fails (the prior fact contents survive the
rollback); otherwise the new fact table is exactly the row image of raw. -/
def rebuild_mart_from_raw (today : Int) (raw : List RawStock) : Except String (List FactRow) :=
  let rows := raw.map (toFactRow today)
  if (rows.map factKey).Nodup then Except.ok rows
  else Except.error "duplicate key value violates unique constraint on (date, marketplace, sku, region)"

/-- One row of `raw.etl_log` as bootstrapped by ozon_loader (`finished`
models `finished_at IS NOT NULL`; timestamps carry no further content). -/
structure LogEntry where
  source : String
  endpoint : String
  status : String
  rows_loaded : Nat
  message : Option String
  finished : Bool

/-- A normalized-frame cell written to a text column by `df.to_sql` after
`astype("string")`: NULL stays NULL, everything else is stringified. -/
def cellToOptStr : JsonVal → Option String
  | JsonVal.null => none
  | v => some (pyStr v)

/-- The SQL row `persist_normalized` appends to `raw.ozon_stock` for one
frame row. -/
def rawOfOzonRow (r : OzonRow) : RawStock :=
  { date := r.date
    warehouse_name := cellToOptStr r.warehouse_name
    region := cellToOptStr r.region
    product_id := cellToOptStr r.product_id
    sku := cellToOptStr r.sku
    item_name := cellToOptStr r.item_name
    quantity := some r.quantity
    reserved := some r.reserved
    price := some r.price }

/-- The database state the Ozon loader touches. -/
structure OzonDb where
  etl_log : List LogEntry
  ozon_stock_raw : List JsonVal
  ozon_stock : List RawStock
  fact_sales : List FactRow

/-- The fresh row `start_log` INSERTs: status `running`, no finish time. -/
def mkStartEntry (source endpoint : String) : LogEntry :=
  { source := source, endpoint := endpoint, status := "running",
    rows_loaded := 0, message := none, finished := false }

/-- ozon_loader `start_log`: INSERT a `running` entry, RETURNING its id
(modelled as its index). -/
def start_log (db : OzonDb) (source endpoint : String) : Nat × OzonDb :=
  (db.etl_log.length,
   { db with etl_log := db.etl_log ++ [mkStartEntry source endpoint] })

/-- `UPDATE ... WHERE id = logId` on the log table: apply `f` to the row at
index `logId`. -/
def updNth (f : LogEntry → LogEntry) : Nat → List LogEntry → List LogEntry
  | _, [] => []
  | 0, e :: rest => f e :: rest
  | n + 1, e :: rest => e :: updNth f n rest

/-- The terminal mutation `finish_log` applies to the run's entry. -/
def finishUpd (status : String) (rows : Nat) (message : Option String) :
    LogEntry → LogEntry := fun e =>
  { e with status := status, rows_loaded := rows,
           message := message, finished := true }

/-- ozon_loader `finish_log`: UPDATE the entry `log_id`, setting
`finished_at`, `status`, `rows_loaded` and `message`. -/
def finish_log (db : OzonDb) (logId : Nat) (status : String) (rows : Nat)
    (message : Option String) : OzonDb :=
  { db with etl_log := updNth (finishUpd status rows message) logId db.etl_log }

/-- The `raw=..., norm=...` message `finish_log` receives on success. -/
def okMsg (rowsRaw rowsNorm : Nat) : String :=
  "raw=" ++ toString rowsRaw ++ ", norm=" ++ toString rowsNorm

/-- ozon_loader `run()`: bootstrap (pure DDL, a no-op on an already
bootstrapped database), `start_log`, then under `try`: fetch (whose outcome
the oracle `fetchRes` supplies), normalize, and — unless `--dry-run` —
rebuild the mart and persist raw payloads and normalized rows; `finish_log`
writes the terminal `ok` entry, and any raised error is terminally logged
as `error` and re-raised. Note `--dry-run` skips only the writes inside the
`if not args.dry_run` guards: the run-log writes happen regardless. -/
def ozon_run (dry : Bool) (today : Int) (fetchRes : Except String (List JsonVal))
    (db0 : OzonDb) : Except String Unit × OzonDb :=
  let idDb := start_log db0 "ozon" "/v2/analytics/stock_on_warehouses"
  let logId := idDb.1
  let db := idDb.2
  match fetchRes with
  | Except.error e => (Except.error e, finish_log db logId "error" 0 (some e))
  | Except.ok items =>
    let df := normalize_stock today items
    if dry then
      (Except.ok (), finish_log db logId "ok" 0 (some (okMsg 0 0)))
    else
      match rebuild_mart_from_raw today db.ozon_stock with
      | Except.error e => (Except.error e, finish_log db logId "error" 0 (some e))
      | Except.ok fact =>
        let db1 := { db with fact_sales := fact }
        let rowsRaw := items.length
        let db2 := { db1 with ozon_stock_raw := db1.ozon_stock_raw ++ items }
        let rowsNorm := df.length
        let db3 := { db2 with ozon_stock := db2.ozon_stock ++ df.map rawOfOzonRow }
        (Except.ok (), finish_log db3 logId "ok" rowsNorm (some (okMsg rowsRaw rowsNorm)))

/-- One row of the log table wb_loader's `log_etl` inserts into (its column
set differs from the bootstrapped `raw.etl_log`); `meta` is kept as the
since/until pair serialized into it. -/
structure WbLogEntry where
  source : String
  status : String
  rows : Nat
  meta_since : String
  meta_until : String

/-- The database state the WB loader touches. -/
structure WbDb where
  wb_sales : List WbStoreRow
  etl_log : List WbLogEntry

/-- wb_loader `run()`: fetch (oracle-supplied outcome), normalize — either
may raise, and nothing has been written or logged when they do — then
`--dry-run` returns before any write; otherwise the windowed upsert runs
and `log_etl` best-effort-inserts a single `ok` entry (`logWorks` tells
whether that INSERT succeeds; its failure is silently swallowed). No log
entry is created at run start, and no `error` entry is ever written. -/
def wb_run (dry : Bool) (logWorks : Bool) (fetchRes : Except String (List JsonVal))
    (sinceArg untilArg : String) (db : WbDb) : Except String Unit × WbDb :=
  match fetchRes with
  | Except.error e => (Except.error e, db)
  | Except.ok items =>
    match normalize_to_df items with
    | Except.error e => (Except.error e, db)
    | Except.ok df =>
      if dry then (Except.ok (), db)
      else
        let up := upsert_raw_wb db.wb_sales (df.map wbStoreOf)
        let db1 := { db with wb_sales := up.1 }
        let db2 :=
          if logWorks then
            { db1 with etl_log := db1.etl_log ++
                [{ source := "wb", status := "ok", rows := up.2,
                   meta_since := sinceArg, meta_until := untilArg }] }
          else db1
        (Except.ok (), db2)

/-! Concrete inputs used by the witnesses and counterexamples below. -/

/-- An upstream whose first three attempts answer HTTP 503 and whose fourth
answers HTTP 200. -/
def o503 : Nat → ReqOutcome := fun n =>
  if n < 3 then ReqOutcome.resp 503 JsonVal.null else ReqOutcome.resp 200 JsonVal.null

/-- An upstream answering HTTP 503 on every attempt. -/
def oAll503 : Nat → ReqOutcome := fun _ => ReqOutcome.resp 503 JsonVal.null

/-- An upstream raising a transport exception on every attempt. -/
def oAllExn : Nat → ReqOutcome := fun _ => ReqOutcome.exn "connection reset"

/-- A strictly-decreasing-then-empty page sequence (sizes 2, 1) with a page
limit far above both sizes. -/
def cexPages : List (List JsonVal) := [[JsonVal.num 0, JsonVal.num 1], [JsonVal.num 2]]

/-- A full-then-short page sequence (sizes 2, 1) for page limit 2. -/
def fullShortPages : List (List JsonVal) := [[JsonVal.num 0, JsonVal.num 1], [JsonVal.num 2]]

/-- A response object with no `result` key whose top level holds
`items: [null]`. -/
def cexItemsObj : JsonVal := JsonVal.obj [("items", JsonVal.arr [JsonVal.null])]

/-- A report record whose quantity is the non-numeric string `abc`. -/
def badQtyItem : JsonVal := JsonVal.obj [("quantity", JsonVal.str "abc")]

/-- A report batch with one date-resolvable record and one record bare of
every date candidate. -/
def wbWitnessItems : List JsonVal :=
  [JsonVal.obj [("date", JsonVal.str "2024-01-02")], JsonVal.obj []]

/-- The frame `normalize_to_df` produces for `wbWitnessItems`. -/
def wbWitnessDf : List WbRow :=
  ((normalize_to_df wbWitnessItems).toOption).getD []

/-- A stored WB sales row used by the upsert witness. -/
def upsertWitnessRow : WbStoreRow :=
  { date := 5, sku := "A", region := JsonVal.null, quantity := 1, price := 2,
    payload := JsonVal.null }

/-- A raw Ozon stock row (sku `A`, empty region, quantity 1, price 10). -/
def ozonDupA : RawStock :=
  { date := some 20240101
    warehouse_name := none
    region := some ""
    product_id := none
    sku := some "A"
    item_name := none
    quantity := some 1
    reserved := none
    price := some 10 }

/-- A second raw row sharing `ozonDupA`'s composite key with a different
quantity (the same sku stocked in two warehouses of one region). -/
def ozonDupB : RawStock :=
  { date := some 20240101
    warehouse_name := none
    region := some ""
    product_id := none
    sku := some "A"
    item_name := none
    quantity := some 2
    reserved := none
    price := some 10 }

/-- An empty Ozon-side database. -/
def emptyODb : OzonDb :=
  { etl_log := [], ozon_stock_raw := [], ozon_stock := [], fact_sales := [] }

/-- An empty WB-side database. -/
def emptyWbDb : WbDb := { wb_sales := [], etl_log := [] }

/-! Helper lemmas. -/

theorem post_loop_agree (o o2 : Nat → ReqOutcome) :
    ∀ (r a acc : Nat), (∀ j, a ≤ j → j < a + r → o j = o2 j) →
      post_loop o r a acc = post_loop o2 r a acc := by
  intro r
  induction r with
  | zero => intro a acc _; rfl
  | succ n ih =>
    intro a acc hag
    have ha : o a = o2 a := hag a le_rfl (by omega)
    simp only [post_loop, ha]
    cases o2 a with
    | resp status body =>
      by_cases h200 : status == 200
      · simp [h200]
      · simp only [h200, Bool.false_eq_true, if_false]
        by_cases h5 : (500 ≤ status && status < 600) = true
        · simp only [h5, if_true]
          exact ih (a + 1) (acc + backoff a) (fun j hj1 hj2 => hag j (by omega) (by omega))
        · simp [h5]
    | exn e =>
      by_cases hl : a == maxRetries - 1
      · simp [hl]
      · simp only [hl, Bool.false_eq_true, if_false]
        exact ih (a + 1) (acc + backoff a) (fun j hj1 hj2 => hag j (by omega) (by omega))

theorem post_loop_ok (o : Nat → ReqOutcome) (b : JsonVal) (i : Nat)
    (hok : o i = ReqOutcome.resp 200 b) :
    ∀ (r a acc : Nat), a + r = maxRetries → a ≤ i → i < maxRetries →
      (∀ j, a ≤ j → j < i → retryable (o j) = true) →
      post_loop o r a acc
        = (RetryOutcome.ok b, acc + ((List.range' a (i - a)).map (fun j => min (2 ^ j) 30)).sum) := by
  intro r
  induction r with
  | zero => intro a acc h5 hai hi _; omega
  | succ n ih =>
    intro a acc h5 hai hi hretry
    rcases eq_or_lt_of_le hai with heq | hlt
    · subst heq
      simp [post_loop, hok]
    · have hra := hretry a le_rfl hlt
      have hstep : i - a = (i - (a + 1)) + 1 := by omega
      have hsum : ((List.range' a (i - a)).map (fun j => min (2 ^ j) 30)).sum
          = min (2 ^ a) 30 + ((List.range' (a + 1) (i - (a + 1))).map (fun j => min (2 ^ j) 30)).sum := by
        rw [hstep, List.range'_succ]
        simp
      cases hoa : o a with
      | resp status body =>
        rw [hoa] at hra
        simp only [retryable] at hra
        have hs500 : 500 ≤ status := by
          have h1 := (Bool.and_eq_true _ _).mp hra
          exact of_decide_eq_true h1.1
        have h200 : (status == 200) = false := by
          apply beq_eq_false_iff_ne.mpr
          omega
        simp only [post_loop, hoa, h200, Bool.false_eq_true, if_false, hra, if_true]
        rw [ih (a + 1) (acc + backoff a) (by omega) (by omega) hi
          (fun j hj1 hj2 => hretry j (by omega) hj2)]
        simp [backoff, hsum, Nat.add_assoc]
      | exn e =>
        have hne : (a == maxRetries - 1) = false := by
          apply beq_eq_false_iff_ne.mpr
          simp only [maxRetries] at hi ⊢
          omega
        simp only [post_loop, hoa, hne, Bool.false_eq_true, if_false]
        rw [ih (a + 1) (acc + backoff a) (by omega) (by omega) hi
          (fun j hj1 hj2 => hretry j (by omega) hj2)]
        simp [backoff, hsum, Nat.add_assoc]

/-! Claim theorems. -/

/-- C1: before the attempt following failed attempt `i` (0-indexed) the
retry controller waits `min(2^i, 30)` time units and at most 5 attempts are
made in total: when every attempt before `i < 5` is retryable and attempt
`i` answers HTTP 200, `post_with_retries` returns that response's body with
total elapsed retry delay the sum of `min(2^j, 30)` over `j < i`, and the
call's outcome depends only on the first five attempt outcomes. -/
theorem C1_retry_schedule (o : Nat → ReqOutcome) (b : JsonVal) (i : Nat)
    (hi : i < 5) (hretry : ∀ j, j < i → retryable (o j) = true)
    (hok : o i = ReqOutcome.resp 200 b) :
    post_with_retries o = (RetryOutcome.ok b, delaysUpTo i)
    ∧ ∀ o2 : Nat → ReqOutcome, (∀ j, j < 5 → o j = o2 j) →
        post_with_retries o2 = post_with_retries o := by
  constructor
  · have h := post_loop_ok o b i hok maxRetries 0 0 (by simp) (Nat.zero_le i) hi
      (fun j _ hj => hretry j hj)
    rw [post_with_retries, h]
    simp [delaysUpTo, List.range_eq_range']
  · intro o2 hag
    exact (post_loop_agree o o2 maxRetries 0 0 (fun j _ hj => hag j hj)).symm

/-- C1 witness: three HTTP 503 answers then HTTP 200 on the 4th attempt
succeed with total retry delay 1 + 2 + 4 = 7. -/
theorem C1_retry_schedule_witness :
    (∀ j, j < 3 → retryable (o503 j) = true)
    ∧ post_with_retries o503 = (RetryOutcome.ok JsonVal.null, 7) := by
  constructor
  · decide
  · have h := (C1_retry_schedule o503 JsonVal.null 3 (by decide) (by decide) rfl).1
    have e : delaysUpTo 3 = 7 := rfl
    rw [e] at h
    exact h

/-- C2: on exhausting retries the controller re-raises the last transport
exception, but for HTTP 5xx on every attempt it does not raise: after the
fifth 503 (and total backoff 1 + 2 + 4 + 8 + 16 = 31) the loop falls
through and the call returns the empty dict normally, so the caller sees an
empty result instead of an error. -/
theorem C2_exhaustion_behavior :
    post_with_retries oAll503 = (RetryOutcome.ok (JsonVal.obj []), 31)
    ∧ post_with_retries oAllExn = (RetryOutcome.reraised "connection reset", 15) :=
  ⟨rfl, rfl⟩

theorem fetch_report_aux_len (pages : List (List JsonVal)) :
    ∀ c : Rat, (∀ p, p ∈ pages → p ≠ []) →
      (fetch_report_aux pages c).length = (pages.map List.length).sum := by
  induction pages with
  | nil => intro c _; rfl
  | cons p rest ih =>
    intro c hne
    have hp : p ≠ [] := hne p (List.mem_cons_self p rest)
    have hpe : p.isEmpty = false := by
      cases p with
      | nil => exact absurd rfl hp
      | cons a l => rfl
    simp only [fetch_report_aux, hpe, Bool.false_eq_true, if_false]
    rw [List.length_append, ih (batchMaxRrd p) (fun q hq => hne q (List.mem_cons_of_mem p hq))]
    simp

theorem fetch_all_aux_offset_irrel (L : Nat) (pages : List (List JsonVal)) :
    ∀ off off2 : Nat, fetch_all_aux L pages off = fetch_all_aux L pages off2 := by
  induction pages with
  | nil => intro off off2; rfl
  | cons p rest ih =>
    intro off off2
    simp only [fetch_all_aux]
    by_cases h0 : (p.length == 0) = true
    · simp [h0]
    · simp only [h0, Bool.false_eq_true, if_false]
      by_cases hlt : p.length < L
      · simp [hlt]
      · simp only [hlt, if_false]
        rw [ih (off + L) (off2 + L)]

theorem fetch_all_offset_shape (L : Nat) (pages : List (List JsonVal))
    (hL : 0 < L) (hshape : OffsetShape L pages) :
    (fetch_all_ozon_stock L pages).length = (pages.map List.length).sum := by
  induction hshape with
  | nil => rfl
  | short p h =>
    simp only [fetch_all_ozon_stock, fetch_all_aux]
    by_cases h0 : (p.length == 0) = true
    · have : p.length = 0 := by simpa using h0
      simp [h0, this]
    · simp [h0, h]
  | full p rest h hr ih =>
    have h0 : (p.length == 0) = false := by
      simp only [beq_eq_false_iff_ne]
      omega
    have hnlt : ¬ p.length < L := by omega
    simp only [fetch_all_ozon_stock, fetch_all_aux, h0, Bool.false_eq_true, if_false,
      hnlt, if_false]
    rw [List.length_append, fetch_all_aux_offset_irrel L rest (0 + L) 0]
    simp only [fetch_all_ozon_stock] at ih
    rw [ih]
    simp

/-- C3 counterexample: for the upstream page-size sequence 2, 1 (strictly
decreasing, then exhausted) and requested page size 1000, the offset/limit
paginator stops after the first page because it is short, so it accumulates
2 records while the sum of all non-empty page sizes is 3. -/
theorem C3_paginator_counterexample :
    cexPages.map List.length = [2, 1]
    ∧ (fetch_all_ozon_stock 1000 cexPages).length = 2
    ∧ (cexPages.map List.length).sum = 3 := by
  refine ⟨rfl, rfl, rfl⟩

/-- C3 amended: the cursor paginator accumulates the sum of all non-empty
page sizes for any sequence of non-empty pages followed by exhaustion; the
offset/limit paginator starts at offset 0, advances the offset by the page
size after each full page, terminates on an empty or short page, and
accumulates the sum of all page sizes exactly when every page before the
first short or empty one is full. -/
theorem C3_paginator_amended :
    (∀ pages : List (List JsonVal), (∀ p, p ∈ pages → p ≠ []) →
        (fetch_report_all pages).length = (pages.map List.length).sum)
    ∧ (∀ (L : Nat) (pages : List (List JsonVal)), 0 < L → OffsetShape L pages →
        (fetch_all_ozon_stock L pages).length = (pages.map List.length).sum)
    ∧ (∀ (L off : Nat) (rest : List (List JsonVal)),
        fetch_all_aux L ([] :: rest) off = [])
    ∧ (∀ (L off : Nat) (p : List JsonVal) (rest : List (List JsonVal)),
        p ≠ [] → p.length < L → fetch_all_aux L (p :: rest) off = p)
    ∧ (∀ (L off : Nat) (p : List JsonVal) (rest : List (List JsonVal)),
        0 < L → p.length = L →
        fetch_all_aux L (p :: rest) off = p ++ fetch_all_aux L rest (off + L)) := by
  refine ⟨fun pages h => fetch_report_aux_len pages 0 h,
    fun L pages hL hs => fetch_all_offset_shape L pages hL hs, ?_, ?_, ?_⟩
  · intro L off rest
    rfl
  · intro L off p rest hne hlt
    have h0 : (p.length == 0) = false := by
      simp only [beq_eq_false_iff_ne]
      simpa using hne
    simp [fetch_all_aux, h0, hlt]
  · intro L off p rest hL hfull
    have h0 : (p.length == 0) = false := by
      simp only [beq_eq_false_iff_ne]
      omega
    have hnlt : ¬ p.length < L := by omega
    simp [fetch_all_aux, h0, hnlt]

/-- C3 witness: the cursor paginator accumulates 3 records over the
non-empty pages of sizes 2 and 1, and the offset/limit paginator with page
size 2 accumulates 3 records over the full-then-short sequence of sizes
2 and 1. -/
theorem C3_paginator_witness :
    (fetch_report_all fullShortPages).length = (fullShortPages.map List.length).sum
    ∧ (fetch_all_ozon_stock 2 fullShortPages).length = (fullShortPages.map List.length).sum := by
  constructor
  · refine C3_paginator_amended.1 fullShortPages ?_
    intro p hp
    simp only [fullShortPages] at hp
    rcases List.mem_cons.mp hp with h | hp2
    · subst h; simp
    · rcases List.mem_cons.mp hp2 with h | h3
      · subst h; simp
      · simp at h3
  · refine C3_paginator_amended.2.1 2 fullShortPages (by decide) ?_
    exact OffsetShape.full _ _ rfl (OffsetShape.short _ (by decide))

theorem probeLoop_skip (rk : List (String × JsonVal)) (k : String) (ks : List String)
    (h : ∀ l, jget rk k ≠ some (JsonVal.arr l)) :
    probeLoop rk (k :: ks) = probeLoop rk ks := by
  simp only [probeLoop]

/-- C4 counterexample: on the object with no top-level `result` key whose
`items` key holds `[null]`, the extractor returns that list rather than the
empty list the claim demands. -/
theorem C4_extract_items_counterexample :
    extract_items cexItemsObj = [JsonVal.null]
    ∧ [JsonVal.null] ≠ ([] : List JsonVal) :=
  ⟨rfl, by simp⟩

/-- C4 amended: a top-level `result` list is returned unchanged; a `result`
object is probed at `items`, `stocks`, `data`, `rows` in that priority
order; when the `result` key is ABSENT the same probing is applied to the
top-level object itself (because the lookup defaults to the whole payload);
a `result` value of any other shape, or a non-object payload, gives the
empty list, as does a probed object none of whose known keys holds a list. -/
theorem C4_extract_items_amended :
    (∀ (kvs : List (String × JsonVal)) (l : List JsonVal),
        jget kvs "result" = some (JsonVal.arr l) → extract_items (JsonVal.obj kvs) = l)
    ∧ (∀ (kvs rk : List (String × JsonVal)),
        jget kvs "result" = some (JsonVal.obj rk) →
        extract_items (JsonVal.obj kvs) = probe_keys rk)
    ∧ (∀ kvs : List (String × JsonVal),
        jget kvs "result" = none → extract_items (JsonVal.obj kvs) = probe_keys kvs)
    ∧ (∀ (kvs : List (String × JsonVal)) (v : JsonVal),
        jget kvs "result" = some v → (∀ l, v ≠ JsonVal.arr l) →
        (∀ rk, v ≠ JsonVal.obj rk) → extract_items (JsonVal.obj kvs) = [])
    ∧ (∀ (rk : List (String × JsonVal)) (l : List JsonVal),
        jget rk "items" = some (JsonVal.arr l) → probe_keys rk = l)
    ∧ (∀ (rk : List (String × JsonVal)) (l : List JsonVal),
        (∀ l2, jget rk "items" ≠ some (JsonVal.arr l2)) →
        jget rk "stocks" = some (JsonVal.arr l) → probe_keys rk = l)
    ∧ (∀ (rk : List (String × JsonVal)) (l : List JsonVal),
        (∀ l2, jget rk "items" ≠ some (JsonVal.arr l2)) →
        (∀ l2, jget rk "stocks" ≠ some (JsonVal.arr l2)) →
        jget rk "data" = some (JsonVal.arr l) → probe_keys rk = l)
    ∧ (∀ (rk : List (String × JsonVal)) (l : List JsonVal),
        (∀ l2, jget rk "items" ≠ some (JsonVal.arr l2)) →
        (∀ l2, jget rk "stocks" ≠ some (JsonVal.arr l2)) →
        (∀ l2, jget rk "data" ≠ some (JsonVal.arr l2)) →
        jget rk "rows" = some (JsonVal.arr l) → probe_keys rk = l)
    ∧ (∀ rk : List (String × JsonVal),
        (∀ l2, jget rk "items" ≠ some (JsonVal.arr l2)) →
        (∀ l2, jget rk "stocks" ≠ some (JsonVal.arr l2)) →
        (∀ l2, jget rk "data" ≠ some (JsonVal.arr l2)) →
        (∀ l2, jget rk "rows" ≠ some (JsonVal.arr l2)) →
        probe_keys rk = []) := by
  refine ⟨?_, ?_, ?_, ?_, ?_, ?_, ?_, ?_, ?_⟩
  · intro kvs l h
    simp [extract_items, h]
  · intro kvs rk h
    simp [extract_items, h]
  · intro kvs h
    simp [extract_items, h, probe_keys]
  · intro kvs v h hna hno
    simp only [extract_items, h, Option.getD_some]
  · intro rk l h
    simp [probe_keys, probeKeysOrder, probeLoop, h]
  · intro rk l h1 h2
    rw [probe_keys, probeKeysOrder, probeLoop_skip rk "items" _ h1]
    simp [probeLoop, h2]
  · intro rk l h1 h2 h3
    rw [probe_keys, probeKeysOrder, probeLoop_skip rk "items" _ h1,
      probeLoop_skip rk "stocks" _ h2]
    simp [probeLoop, h3]
  · intro rk l h1 h2 h3 h4
    rw [probe_keys, probeKeysOrder, probeLoop_skip rk "items" _ h1,
      probeLoop_skip rk "stocks" _ h2, probeLoop_skip rk "data" _ h3]
    simp [probeLoop, h4]
  · intro rk h1 h2 h3 h4
    rw [probe_keys, probeKeysOrder, probeLoop_skip rk "items" _ h1,
      probeLoop_skip rk "stocks" _ h2, probeLoop_skip rk "data" _ h3,
      probeLoop_skip rk "rows" _ h4]
    rfl

/-- C4 witness: a `result` list comes back unchanged, and a `result` object
whose first listed key is `stocks` resolves through the priority probe. -/
theorem C4_extract_items_witness :
    extract_items (JsonVal.obj [("result", JsonVal.arr [JsonVal.num 1])]) = [JsonVal.num 1]
    ∧ extract_items (JsonVal.obj [("result", JsonVal.obj [("stocks", JsonVal.arr [JsonVal.num 2])])])
        = [JsonVal.num 2] := by
  constructor
  · exact C4_extract_items_amended.1 _ _ rfl
  · have h2 := C4_extract_items_amended.2.1 [("result", JsonVal.obj [("stocks", JsonVal.arr [JsonVal.num 2])])]
      [("stocks", JsonVal.arr [JsonVal.num 2])] rfl
    rw [h2]
    refine C4_extract_items_amended.2.2.2.2.2.1 _ _ ?_ rfl
    intro l2
    simp [jget]

theorem wbRow_ok_date (it : JsonVal) (r : WbRow) (h : wbRow it = Except.ok r) :
    pyParse_date (wbSaleDt it) = Except.ok r.date := by
  unfold wbRow at h
  cases hd : pyParse_date (wbSaleDt it) with
  | error e => rw [hd] at h; simp at h
  | ok dt =>
    rw [hd] at h
    cases hq : pyFloat (wbQty it) with
    | error e => rw [hq] at h; simp at h
    | ok q =>
      rw [hq] at h
      cases hp : pyFloat (wbPrice it) with
      | error e => rw [hp] at h; simp at h
      | ok p =>
        rw [hp] at h
        simp only [Except.ok.injEq] at h
        subst h
        rfl

theorem rowsLoop_filter_len (items : List JsonVal) :
    ∀ rows : List WbRow, rowsLoop items = Except.ok rows →
      (rows.filter (fun r => r.date.isSome)).length = (items.filter wbDateResolved).length := by
  induction items with
  | nil =>
    intro rows h
    simp only [rowsLoop, Except.ok.injEq] at h
    subst h
    rfl
  | cons it rest ih =>
    intro rows h
    simp only [rowsLoop] at h
    cases hw : wbRow it with
    | error e => rw [hw] at h; simp at h
    | ok r =>
      rw [hw] at h
      cases hr : rowsLoop rest with
      | error e => rw [hr] at h; simp at h
      | ok rs =>
        rw [hr] at h
        simp only [Except.ok.injEq] at h
        subst h
        have hdate := wbRow_ok_date it r hw
        have heq : r.date.isSome = wbDateResolved it := by
          cases hdd : r.date with
          | none => simp [wbDateResolved, hdate, hdd]
          | some d => simp [wbDateResolved, hdate, hdd]
        cases hb : wbDateResolved it with
        | true => simp [List.filter_cons, heq, hb, ih rs hr]
        | false => simp [List.filter_cons, heq, hb, ih rs hr]

theorem rowsLoop_ok_mem (items : List JsonVal) :
    ∀ rows : List WbRow, rowsLoop items = Except.ok rows →
      ∀ it, it ∈ items → ∃ r, wbRow it = Except.ok r := by
  induction items with
  | nil => intro rows _ it hit; simp at hit
  | cons a rest ih =>
    intro rows h it hit
    simp only [rowsLoop] at h
    cases hw : wbRow a with
    | error e => rw [hw] at h; simp at h
    | ok r =>
      rw [hw] at h
      cases hr : rowsLoop rest with
      | error e => rw [hr] at h; simp at h
      | ok rs =>
        rcases List.mem_cons.mp hit with he | hm
        · subst he; exact ⟨r, hw⟩
        · exact ih rs hr it hm


theorem resolvedDates_length (today : Int) (items : List JsonVal) :
    (resolvedDates today items).length = items.length := by
  simp only [resolvedDates]
  split
  · split
    · simp
    · simp
  · simp
theorem filter_length_lt_of_mem_not {α : Type} (p : α → Bool) :
    ∀ (l : List α) (x : α), x ∈ l → p x = false → (l.filter p).length < l.length := by
  intro l
  induction l with
  | nil => intro x hx _; simp at hx
  | cons a rest ih =>
    intro x hx hpx
    rcases List.mem_cons.mp hx with he | hm
    · subst he
      rw [List.filter_cons, hpx]
      simp only [Bool.false_eq_true, if_false, List.length_cons]
      exact Nat.lt_succ_of_le (List.length_filter_le p rest)
    · rw [List.filter_cons]
      cases hpa : p a
      · simp only [Bool.false_eq_true, if_false, List.length_cons]
        exact Nat.lt_succ_of_lt (ih x hm hpx)
      · simp only [if_true, List.length_cons]
        exact Nat.succ_lt_succ (ih x hm hpx)

theorem zipWith_mkOzonRow_proj (f : OzonRow → Rat) (g : JsonVal → Rat)
    (hfg : ∀ it d, f (mkOzonRow it d) = g it) :
    ∀ (l1 : List JsonVal) (l2 : List (Option Int)), l1.length = l2.length →
      (List.zipWith mkOzonRow l1 l2).map f = l1.map g := by
  intro l1
  induction l1 with
  | nil => intro l2 _; rfl
  | cons a r ih =>
    intro l2 hlen
    cases l2 with
    | nil => simp at hlen
    | cons d ds =>
      simp only [List.zipWith_cons_cons, List.map_cons, hfg]
      rw [ih ds (by simpa using hlen)]

theorem normalize_stock_measure (f : OzonRow → Rat) (g : JsonVal → Rat)
    (hfg : ∀ it d, f (mkOzonRow it d) = g it) (today : Int) (items : List JsonVal) :
    (normalize_stock today items).map f = items.map g := by
  cases items with
  | nil => rfl
  | cons it rest =>
    simp only [normalize_stock]
    exact zipWith_mkOzonRow_proj f g hfg (it :: rest) _
      (resolvedDates_length today (it :: rest)).symm

theorem normalize_stock_length (today : Int) (items : List JsonVal) :
    (normalize_stock today items).length = items.length := by
  cases items with
  | nil => rfl
  | cons it rest =>
    simp only [normalize_stock, List.length_zipWith, resolvedDates_length, Nat.min_self]

/-- C5 counterexample: the Ozon normalizer does not drop a record bare of
every date candidate — it keeps the row and substitutes the current date,
so the output batch count is not strictly less than the input count. -/
theorem C5_normalizer_drop_counterexample :
    (normalize_stock 20240101 [JsonVal.obj []]).length = 1
    ∧ (normalize_stock 20240101 [JsonVal.obj []]).map (fun r => r.date) = [some 20240101]
    ∧ ¬ (normalize_stock 20240101 [JsonVal.obj []]).length < 1 :=
  ⟨rfl, rfl, by decide⟩

/-- C5 amended: the WB normalizer `normalize_to_df` drops exactly the rows
whose date candidates do not resolve (when the batch normalizes without
raising): the output size is the number of date-resolvable records, every
kept row carries a date, and the count strictly decreases whenever some
record is date-unresolvable; the Ozon normalizer `normalize_stock` never
drops a row — its output count always equals its input count. -/
theorem C5_normalizer_drop (items : List JsonVal) (df : List WbRow) (today : Int)
    (h : normalize_to_df items = Except.ok df) :
    df.length = (items.filter wbDateResolved).length
    ∧ (∀ r, r ∈ df → r.date.isSome = true)
    ∧ ((∃ it, it ∈ items ∧ wbDateResolved it = false) → df.length < items.length)
    ∧ (normalize_stock today items).length = items.length := by
  have hfilter : ∃ rows, rowsLoop items = Except.ok rows
      ∧ df = rows.filter (fun r => r.date.isSome) := by
    cases hloop : rowsLoop items with
    | error e => rw [normalize_to_df, hloop] at h; simp at h
    | ok rows =>
      rw [normalize_to_df, hloop] at h
      simp only [Except.ok.injEq] at h
      exact ⟨rows, rfl, h.symm⟩
  obtain ⟨rows, hloop, hdf⟩ := hfilter
  have hlen : df.length = (items.filter wbDateResolved).length := by
    rw [hdf]
    exact rowsLoop_filter_len items rows hloop
  refine ⟨hlen, ?_, ?_, normalize_stock_length today items⟩
  · intro r hr
    rw [hdf] at hr
    exact (List.mem_filter.mp hr).2
  · rintro ⟨it, hmem, hfalse⟩
    rw [hlen]
    exact filter_length_lt_of_mem_not wbDateResolved items it hmem hfalse

/-- C5 witness: of a two-record batch with one resolvable date and one
record bare of date candidates, the WB normalizer keeps exactly one row
(a strict decrease) while the Ozon normalizer keeps both records. -/
theorem C5_normalizer_drop_witness :
    normalize_to_df wbWitnessItems = Except.ok wbWitnessDf
    ∧ wbWitnessDf.length = (wbWitnessItems.filter wbDateResolved).length
    ∧ wbWitnessDf.length < wbWitnessItems.length
    ∧ (normalize_stock 0 wbWitnessItems).length = wbWitnessItems.length := by
  have h : normalize_to_df wbWitnessItems = Except.ok wbWitnessDf := rfl
  have hc := C5_normalizer_drop wbWitnessItems wbWitnessDf 0 h
  refine ⟨h, hc.1, ?_, hc.2.2.2⟩
  exact hc.2.2.1 ⟨JsonVal.obj [], List.mem_cons_of_mem _ (List.mem_cons_self _ _), rfl⟩

/-- C6 counterexample: a WB record whose quantity is the non-numeric string
`abc` aborts normalization of the whole batch with a raised conversion
error, contradicting the claim that a non-numeric measure never aborts. -/
theorem C6_measure_coercion_counterexample :
    normalize_to_df [badQtyItem] = Except.error "could not convert string to float: abc" :=
  rfl

/-- C6 amended: the Ozon normalizer coerces each numeric measure
(quantity, reserved, price) cell-wise, substituting zero for any value that
does not parse as a number, and never raises; the WB normalizer substitutes
zero only for missing/empty/`null`-string/falsy measures, and a measure
holding a non-numeric string aborts the whole batch with an error. -/
theorem C6_measure_coercion (today : Int) (items : List JsonVal) (it : JsonVal) (s : String)
    (hmem : it ∈ items) (hq : wbQty it = JsonVal.str s) (hs : parseFloatStr s = none) :
    exceptIsOk (normalize_to_df items) = false
    ∧ (normalize_stock today items).map (fun r => r.quantity)
        = items.map (fun x => (pdToNumeric (jgetD x "quantity")).getD 0)
    ∧ (normalize_stock today items).map (fun r => r.reserved)
        = items.map (fun x => (pdToNumeric (jgetD x "reserved")).getD 0)
    ∧ (normalize_stock today items).map (fun r => r.price)
        = items.map (fun x => (pdToNumeric (jgetD x "price")).getD 0) := by
  have hwb : ∀ r2 : WbRow, wbRow it ≠ Except.ok r2 := by
    intro r2 hok
    unfold wbRow at hok
    cases hd : pyParse_date (wbSaleDt it) with
    | error e => rw [hd] at hok; simp at hok
    | ok dt =>
      rw [hd, hq] at hok
      simp only [pyFloat, hs] at hok
      exact Except.noConfusion hok
  refine ⟨?_, normalize_stock_measure _ _ (fun _ _ => rfl) today items,
    normalize_stock_measure _ _ (fun _ _ => rfl) today items,
    normalize_stock_measure _ _ (fun _ _ => rfl) today items⟩
  cases hloop : rowsLoop items with
  | error e => simp [normalize_to_df, hloop, exceptIsOk]
  | ok rows =>
    obtain ⟨r, hr⟩ := rowsLoop_ok_mem items rows hloop it hmem
    exact absurd hr (hwb r)

/-- C6 witness: the batch holding the bad-quantity record aborts WB
normalization, while the Ozon normalizer coerces the same record's
quantity to zero without raising. -/
theorem C6_measure_coercion_witness :
    exceptIsOk (normalize_to_df [badQtyItem]) = false
    ∧ (normalize_stock 0 [badQtyItem]).map (fun r => r.quantity)
        = [badQtyItem].map (fun x => (pdToNumeric (jgetD x "quantity")).getD 0) := by
  have h := C6_measure_coercion 0 [badQtyItem] badQtyItem "abc"
    (List.mem_cons_self _ _) rfl rfl
  exact ⟨h.1, h.2.1⟩

theorem foldl_min_le (l : List Int) :
    ∀ (a x : Int), (x = a ∨ x ∈ l) → l.foldl min a ≤ x := by
  induction l with
  | nil =>
    intro a x hx
    rcases hx with h | h
    · subst h; simp
    · simp at h
  | cons b rest ih =>
    intro a x hx
    simp only [List.foldl_cons]
    rcases hx with h | h
    · subst h
      exact le_trans (ih (min x b) (min x b) (Or.inl rfl)) (min_le_left x b)
    · rcases List.mem_cons.mp h with hb | hr
      · subst hb
        exact le_trans (ih (min a x) (min a x) (Or.inl rfl)) (min_le_right a x)
      · exact ih (min a b) x (Or.inr hr)

theorem le_foldl_max (l : List Int) :
    ∀ (a x : Int), (x = a ∨ x ∈ l) → x ≤ l.foldl max a := by
  induction l with
  | nil =>
    intro a x hx
    rcases hx with h | h
    · subst h; simp
    · simp at h
  | cons b rest ih =>
    intro a x hx
    simp only [List.foldl_cons]
    rcases hx with h | h
    · subst h
      exact le_trans (le_max_left x b) (ih (max x b) (max x b) (Or.inl rfl))
    · rcases List.mem_cons.mp h with hb | hr
      · subst hb
        exact le_trans (le_max_right a x) (ih (max a x) (max a x) (Or.inl rfl))
      · exact ih (max a b) x (Or.inr hr)

theorem batch_in_window (b0 : WbStoreRow) (rest : List WbStoreRow) :
    ∀ r, r ∈ b0 :: rest →
      inWindow (batchMinDate b0 rest) (batchMaxDate b0 rest) r = true := by
  intro r hr
  have hmem : r.date = b0.date ∨ r.date ∈ rest.map (fun q => q.date) := by
    rcases List.mem_cons.mp hr with he | hm
    · subst he; exact Or.inl rfl
    · exact Or.inr (List.mem_map_of_mem _ hm)
  have hmin : batchMinDate b0 rest ≤ r.date := foldl_min_le _ _ _ hmem
  have hmax : r.date ≤ batchMaxDate b0 rest := le_foldl_max _ _ _ hmem
  simp [inWindow, hmin, hmax]

/-- C7: running the windowed-replace writer twice with the identical
non-empty batch leaves the store (and so the stored row count, both total
and within the batch's date window) identical to running it once, and after
one run the rows inside the window are exactly the batch. -/
theorem C7_upsert_idempotent (store batch : List WbStoreRow) (h : batch ≠ []) :
    upsert_raw_wb (upsert_raw_wb store batch).1 batch = upsert_raw_wb store batch
    ∧ ∀ (b0 : WbStoreRow) (rest : List WbStoreRow), batch = b0 :: rest →
        ((upsert_raw_wb store batch).1.filter
          (inWindow (batchMinDate b0 rest) (batchMaxDate b0 rest))).length
          = batch.length := by
  cases batch with
  | nil => exact absurd rfl h
  | cons b0 rest =>
    have hwin := batch_in_window b0 rest
    have hPP : List.filter (fun r => !inWindow (batchMinDate b0 rest) (batchMaxDate b0 rest) r)
        (List.filter (fun r => !inWindow (batchMinDate b0 rest) (batchMaxDate b0 rest) r) store)
        = List.filter (fun r => !inWindow (batchMinDate b0 rest) (batchMaxDate b0 rest) r) store := by
      rw [List.filter_filter]
      exact List.filter_congr (fun x _ => Bool.and_self _)
    have hPbatch : List.filter
        (fun r => !inWindow (batchMinDate b0 rest) (batchMaxDate b0 rest) r) (b0 :: rest)
        = [] :=
      List.filter_eq_nil_iff.mpr (fun a ha => by simp [hwin a ha])
    constructor
    · simp only [upsert_raw_wb]
      rw [List.filter_append, hPP, hPbatch, List.append_nil]
    · intro b0' rest' heq
      injection heq with h1 h2
      subst h1
      subst h2
      simp only [upsert_raw_wb]
      rw [List.filter_append]
      have hIW : List.filter (inWindow (batchMinDate b0 rest) (batchMaxDate b0 rest))
          (List.filter (fun r => !inWindow (batchMinDate b0 rest) (batchMaxDate b0 rest) r) store)
          = [] := by
        rw [List.filter_filter]
        exact List.filter_eq_nil_iff.mpr (fun a _ => by simp)
      have hSelf : List.filter (inWindow (batchMinDate b0 rest) (batchMaxDate b0 rest)) (b0 :: rest)
          = b0 :: rest :=
        List.filter_eq_self.mpr (fun a ha => hwin a ha)
      rw [hIW, hSelf, List.nil_append]

/-- C7 witness: the one-row batch dated 5 written twice over an empty store
yields the same store as writing it once, and its window holds exactly one
row. -/
theorem C7_upsert_idempotent_witness :
    upsert_raw_wb (upsert_raw_wb [] [upsertWitnessRow]).1 [upsertWitnessRow]
      = upsert_raw_wb [] [upsertWitnessRow]
    ∧ ((upsert_raw_wb [] [upsertWitnessRow]).1.filter
        (inWindow (batchMinDate upsertWitnessRow []) (batchMaxDate upsertWitnessRow []))).length
      = [upsertWitnessRow].length := by
  have h := C7_upsert_idempotent [] [upsertWitnessRow] (by simp)
  exact ⟨h.1, h.2 upsertWitnessRow [] rfl⟩

/-- C8: the fact rebuild does not aggregate — it is a plain row-per-row
INSERT..SELECT with no GROUP BY, so on a raw table holding two rows with
the same (date, sku, region) the insert violates the composite primary key
and the whole rebuild fails, instead of producing one aggregated fact row;
on duplicate-free raw data each raw row becomes exactly one fact row with
revenue = quantity * price, cost = 0 and profit = revenue - cost. -/
theorem C8_rebuild_not_grouped :
    rebuild_mart_from_raw 0 [ozonDupA, ozonDupB]
      = Except.error "duplicate key value violates unique constraint on (date, marketplace, sku, region)"
    ∧ rebuild_mart_from_raw 0 [ozonDupA] = Except.ok [toFactRow 0 ozonDupA]
    ∧ (toFactRow 0 ozonDupA).revenue = 10
    ∧ (toFactRow 0 ozonDupA).cost = 0
    ∧ (toFactRow 0 ozonDupA).profit = (toFactRow 0 ozonDupA).revenue - (toFactRow 0 ozonDupA).cost := by
  refine ⟨?_, ?_, ?_, rfl, ?_⟩
  · simp only [rebuild_mart_from_raw]
    rw [if_neg]
    decide
  · simp only [rebuild_mart_from_raw]
    rw [if_pos]
    · rfl
    · decide
  · simp [toFactRow, ozonDupA]
  · simp [toFactRow, ozonDupA]

theorem updNth_append_length (f : LogEntry → LogEntry) :
    ∀ (l : List LogEntry) (a : LogEntry), updNth f l.length (l ++ [a]) = l ++ [f a] := by
  intro l
  induction l with
  | nil => intro a; rfl
  | cons e rest ih =>
    intro a
    simp only [List.length_cons, List.cons_append, updNth, List.append_eq]
    rw [ih]

/-- C9 counterexample: a WB ingestion run that starts and then fails in
fetch writes no run-log entry at all — no entry at run start and no
terminal `error` entry — contradicting the exactly-once terminal write. -/
theorem C9_run_log_counterexample :
    wb_run false true (Except.error "boom") "2024-01-01" "2024-01-31" emptyWbDb
      = (Except.error "boom", emptyWbDb)
    ∧ emptyWbDb.etl_log.length = 0 :=
  ⟨rfl, rfl⟩

/-- C9 amended: the Ozon loader creates a run-log entry at run start and
finalizes exactly that one entry in a terminal state — `ok` on success,
`error` carrying the triggering message on failure; the WB loader creates
no entry at run start and writes nothing at all on a failed run (its single
best-effort `ok` insert happens only on success). -/
theorem C9_run_log (dry : Bool) (today : Int) (fr : Except String (List JsonVal))
    (db : OzonDb) (dry2 logW : Bool) (emsg sArg uArg : String) (wdb : WbDb) :
    (∃ en : LogEntry,
      ((ozon_run dry today fr db).2).etl_log = db.etl_log ++ [en]
      ∧ en.finished = true
      ∧ ((ozon_run dry today fr db).1 = Except.ok () → en.status = "ok")
      ∧ (∀ m, (ozon_run dry today fr db).1 = Except.error m →
          en.status = "error" ∧ en.message = some m))
    ∧ wb_run dry2 logW (Except.error emsg) sArg uArg wdb = (Except.error emsg, wdb) := by
  refine ⟨?_, rfl⟩
  cases fr with
  | error e =>
    refine ⟨finishUpd "error" 0 (some e)
      (mkStartEntry "ozon" "/v2/analytics/stock_on_warehouses"), ?_, rfl, ?_, ?_⟩
    · simp only [ozon_run, start_log, finish_log]
      exact updNth_append_length _ db.etl_log _
    · intro hcontra
      simp [ozon_run, start_log, finish_log] at hcontra
    · intro m hm
      simp only [ozon_run] at hm
      injection hm with hme
      subst hme
      exact ⟨rfl, rfl⟩
  | ok items =>
    cases dry with
    | true =>
      refine ⟨finishUpd "ok" 0 (some (okMsg 0 0))
        (mkStartEntry "ozon" "/v2/analytics/stock_on_warehouses"), ?_, rfl, fun _ => rfl, ?_⟩
      · simp only [ozon_run, start_log, finish_log]
        exact updNth_append_length _ db.etl_log _
      · intro m hm
        simp [ozon_run] at hm
    | false =>
      cases hreb : rebuild_mart_from_raw today db.ozon_stock with
      | error e2 =>
        refine ⟨finishUpd "error" 0 (some e2)
          (mkStartEntry "ozon" "/v2/analytics/stock_on_warehouses"), ?_, rfl, ?_, ?_⟩
        · simp only [ozon_run, start_log, finish_log, hreb]
          exact updNth_append_length _ db.etl_log _
        · intro hcontra
          simp [ozon_run, start_log, finish_log, hreb] at hcontra
        · intro m hm
          simp only [ozon_run, start_log, hreb] at hm
          injection hm with hme
          subst hme
          exact ⟨rfl, rfl⟩
      | ok fact =>
        refine ⟨finishUpd "ok" (normalize_stock today items).length
          (some (okMsg items.length (normalize_stock today items).length))
          (mkStartEntry "ozon" "/v2/analytics/stock_on_warehouses"), ?_, rfl, fun _ => rfl, ?_⟩
        · simp only [ozon_run, start_log, finish_log, hreb]
          exact updNth_append_length _ db.etl_log _
        · intro m hm
          simp [ozon_run, start_log, hreb] at hm

/-- C9 witness: a successful Ozon run over an empty database leaves exactly
one log entry, terminal with status `ok`; a failed WB run leaves the
database (log included) untouched. -/
theorem C9_run_log_witness :
    ((ozon_run false 0 (Except.ok []) emptyODb).2).etl_log.map (fun e => (e.status, e.finished))
      = [("ok", true)]
    ∧ wb_run false true (Except.error "boom") "2024-01-01" "2024-01-31" emptyWbDb
      = (Except.error "boom", emptyWbDb) := by
  obtain ⟨⟨en, hlog, hfin, hok, _⟩, hwb⟩ :=
    C9_run_log false 0 (Except.ok []) emptyODb false true "boom" "2024-01-01" "2024-01-31" emptyWbDb
  have hs := hok rfl
  constructor
  · rw [hlog]
    simp [emptyODb, hs, hfin]
  · exact hwb

/-- C10 counterexample: an Ozon dry run still writes to the run log — the
`raw.etl_log` table grows by one entry — so not every stored table is
unchanged after a dry run. -/
theorem C10_dry_run_counterexample :
    ((ozon_run true 0 (Except.ok []) emptyODb).2).etl_log.length = 1
    ∧ emptyODb.etl_log.length = 0 :=
  ⟨rfl, rfl⟩

/-- C10 amended: a WB dry run performs no writes at all (every stored table
including the run log is unchanged); an Ozon dry run skips the raw-payload,
normalized and mart writes — those tables are unchanged — but still creates
and finalizes one run-log entry. -/
theorem C10_dry_run (today : Int) (fr fr2 : Except String (List JsonVal)) (db : OzonDb)
    (logW : Bool) (sArg uArg : String) (wdb : WbDb) :
    ((ozon_run true today fr db).2).ozon_stock_raw = db.ozon_stock_raw
    ∧ ((ozon_run true today fr db).2).ozon_stock = db.ozon_stock
    ∧ ((ozon_run true today fr db).2).fact_sales = db.fact_sales
    ∧ ((ozon_run true today fr db).2).etl_log.length = db.etl_log.length + 1
    ∧ (wb_run true logW fr2 sArg uArg wdb).2 = wdb := by
  have hwb : (wb_run true logW fr2 sArg uArg wdb).2 = wdb := by
    cases fr2 with
    | error e2 => rfl
    | ok its =>
      cases hn : normalize_to_df its with
      | error e3 => simp [wb_run, hn]
      | ok df => simp [wb_run, hn]
  cases fr with
  | error e =>
    refine ⟨rfl, rfl, rfl, ?_, hwb⟩
    simp only [ozon_run, start_log, finish_log]
    rw [updNth_append_length]
    simp
  | ok items =>
    refine ⟨rfl, rfl, rfl, ?_, hwb⟩
    simp only [ozon_run, start_log, finish_log]
    rw [updNth_append_length]
    simp
